import Mathlib

/-!
Shallow embedding of the FinanceTracker core (multi-currency aggregation,
drill-down, reminder scanner, auto-credit resolver, save-path validation)
and proofs about the claims of the specification.

Conventions of the embedding:
* JavaScript numbers in the aggregation paths are idealised as rationals
  (all divisions there are guarded to nonzero divisors in the source);
  the save path in ReportsView, where an unguarded division occurs, is
  modelled with an explicit IEEE-style value type `JsNum` that carries
  NaN and the infinities.
* JavaScript Date values are idealised as an integer count of
  milliseconds since the epoch, local time identified with UTC; the
  calendar functions mirror ECMAScript MakeDay semantics via the
  standard civil-calendar conversion.
* Optional record fields become `Option` types; JavaScript truthiness of
  optional booleans and numbers is modelled explicitly.
-/

namespace FinanceTracker

/-! ## Data model (src/types.ts as used by App.tsx / Dashboard.tsx / ReportsView.tsx) -/

inductive Currency where
  | USD | EUR | UAH | RUB | GBP
  deriving DecidableEq

def Currency.code : Currency → String
  | .USD => "USD"
  | .EUR => "EUR"
  | .UAH => "UAH"
  | .RUB => "RUB"
  | .GBP => "GBP"

inductive Frequency where
  | oneTime | monthly | weekly | yearly
  deriving DecidableEq

inductive AssetType where
  | income | balance
  deriving DecidableEq

structure Debt where
  id : String
  title : String
  source : String
  totalAmount : ℚ
  remainingAmount : ℚ
  currency : Currency
  isInstallment : Bool
  totalInstallments : Option ℚ
  paidInstallments : Option ℚ
  monthlyPayment : Option ℚ
  date : Int
  deriving DecidableEq

structure Expense where
  id : String
  title : String
  amount : ℚ
  currency : Currency
  category : String
  frequency : Frequency
  date : Int
  dayOfMonth : Option Int
  isPaid : Option Bool
  deriving DecidableEq

structure Asset where
  id : String
  title : String
  amount : ℚ
  currency : Currency
  type : AssetType
  isReceived : Option Bool
  autoCredit : Option Bool
  date : Int
  deriving DecidableEq

structure Goal where
  id : String
  title : String
  targetAmount : ℚ
  currentAmount : ℚ
  currency : Currency
  deadline : Option Int
  date : Int
  deriving DecidableEq

inductive NotifType where
  | expense | debt
  deriving DecidableEq

structure AppNotification where
  id : String
  title : String
  message : String
  date : Int
  isRead : Bool
  type : NotifType
  deriving DecidableEq

structure FinancialState where
  debts : List Debt
  expenses : List Expense
  assets : List Asset
  goals : List Goal
  notifications : List AppNotification
  deriving DecidableEq

/-- Exchange-rate table: Record of currency code to number, absent keys allowed. -/
def RateTable := Currency → Option ℚ

/-! ## JavaScript-value helpers -/

/-- Truthiness of an optional boolean field: undefined and false are falsy. -/
def optBoolTruthy : Option Bool → Bool
  | some b => b
  | none => false

/-- Truthiness of an optional numeric field: undefined and 0 are falsy. -/
def optIntTruthy : Option Int → Bool
  | some n => decide (n ≠ 0)
  | none => false

/-- Model of the expression x || y for a rate-table lookup, where a missing
entry and a zero entry both fall back to the default. -/
def jsNumOr (o : Option ℚ) (dflt : ℚ) : ℚ :=
  match o with
  | some r => if r = 0 then dflt else r
  | none => dflt

/-- Model of the expression s || dflt on strings: the empty string is falsy. -/
def jsStrOr (s dflt : String) : String :=
  if s = "" then dflt else s

/-! ## JavaScript Date model

Timestamps are milliseconds since the Unix epoch (Int); local time is
identified with UTC.  Civil-calendar conversion follows the standard
era-based algorithm, which agrees with ECMAScript MakeDay / day-number
normalisation for out-of-range day and month arguments. -/

def dayMs : Int := 86400000

/-- Day number (days since 1970-01-01) of a civil date; the day argument may
be out of range, in which case the date normalises through the timeline
exactly as ECMAScript MakeDay does. The month must lie in 1..12. -/
def daysFromCivil (y m d : Int) : Int :=
  let y' := if m ≤ 2 then y - 1 else y
  let era := Int.fdiv y' 400
  let yoe := y' - era * 400
  let mp := if 2 < m then m - 3 else m + 9
  let doy := Int.fdiv (153 * mp + 2) 5 + d - 1
  let doe := yoe * 365 + Int.fdiv yoe 4 - Int.fdiv yoe 100 + doy
  era * 146097 + doe - 719468

/-- Civil date (year, month 1..12, day 1..31) of a day number. -/
def civilFromDays (z0 : Int) : Int × Int × Int :=
  let z := z0 + 719468
  let era := Int.fdiv z 146097
  let doe := z - era * 146097
  let yoe := Int.fdiv (doe - Int.fdiv doe 1460 + Int.fdiv doe 36524 - Int.fdiv doe 146096) 365
  let y := yoe + era * 400
  let doy := doe - (365 * yoe + Int.fdiv yoe 4 - Int.fdiv yoe 100)
  let mp := Int.fdiv (5 * doy + 2) 153
  let d := doy - Int.fdiv (153 * mp + 2) 5 + 1
  let m := if mp < 10 then mp + 3 else mp - 9
  (if m ≤ 2 then y + 1 else y, m, d)

/-- Day number containing a timestamp. -/
def jsDays (t : Int) : Int := Int.fdiv t dayMs

/-- Milliseconds elapsed within the day of a timestamp. -/
def jsTod (t : Int) : Int := Int.fmod t dayMs

/-- Model of Date.prototype.getFullYear. -/
def jsYear (t : Int) : Int := (civilFromDays (jsDays t)).1

/-- Model of Date.prototype.getMonth (0-based month). -/
def jsMonth0 (t : Int) : Int := (civilFromDays (jsDays t)).2.1 - 1

/-- Model of Date.prototype.getDate (day of month). -/
def jsDate (t : Int) : Int := (civilFromDays (jsDays t)).2.2

/-- Model of Date.prototype.setDate: place day n in the timestamp's current
month, normalising out-of-range days through the timeline. -/
def jsSetDate (t n : Int) : Int :=
  daysFromCivil (jsYear t) (jsMonth0 t + 1) n * dayMs + jsTod t

/-- Model of Date.prototype.setMonth mi (0-based, any integer), keeping the
day of month and time of day and normalising. -/
def jsSetMonth (t mi : Int) : Int :=
  daysFromCivil (jsYear t + Int.fdiv mi 12) (Int.fmod mi 12 + 1) (jsDate t) * dayMs + jsTod t

/-- The setMonth(getMonth() + 1) idiom from the reminder scanner. -/
def jsAddMonth (t : Int) : Int := jsSetMonth t (jsMonth0 t + 1)

/-- Exact ceiling division, modelling Math.ceil(a / b) for b > 0. -/
def ceilDiv (a b : Int) : Int := -(Int.fdiv (-a) b)

/-- Two timestamps fall in the same calendar month and year, as tested by
comparing getMonth() and getFullYear(). -/
def sameMonth (t u : Int) : Bool :=
  decide (jsMonth0 t = jsMonth0 u) && decide (jsYear t = jsYear u)

/-! ## Currency converter (Dashboard.tsx, toDominant) -/

/-- Conversion to the dominant currency: identity on the dominant currency,
otherwise amount divided by the source rate times the target rate, with a
missing or zero rate falling back to 1. -/
def toDominant (rates : RateTable) (dominantCurrency : Currency)
    (amount : ℚ) (curr : Currency) : ℚ :=
  if curr = dominantCurrency then amount
  else
    let rateFrom := jsNumOr (rates curr) 1
    let rateTo := jsNumOr (rates dominantCurrency) 1
    (amount / rateFrom) * rateTo

/-! ## Currency buckets (the Record String number maps of the analytics) -/

/-- Model of map[key] = (map[key] || 0) + val on a Record object, as an
association list in insertion order. -/
def addToMap {κ : Type} [DecidableEq κ] (m : List (κ × ℚ)) (c : κ) (v : ℚ) :
    List (κ × ℚ) :=
  match m with
  | [] => [(c, v)]
  | (k, w) :: rest =>
      if k = c then (k, (if w = 0 then 0 else w) + v) :: rest
      else (k, w) :: addToMap rest c v

/-- Fold a list of records into a currency bucket map. -/
def bucketOf {α : Type} (key : α → Currency) (val : α → ℚ) (init : List (Currency × ℚ))
    (l : List α) : List (Currency × ℚ) :=
  l.foldl (fun m a => addToMap m (key a) (val a)) init

/-- Sum of a bucket map after converting each entry to the dominant
currency, as done by Object.entries(...).forEach over the maps. -/
def mapSumConv (rates : RateTable) (cur : Currency) (m : List (Currency × ℚ)) : ℚ :=
  m.foldl (fun acc p => acc + toDominant rates cur p.2 p.1) 0

/-! ## Aggregation engine (Dashboard.tsx, analytics) -/

/-- Derived monthly payment of a debt: d.monthlyPayment || (d.totalInstallments
? d.totalAmount / d.totalInstallments : 0). -/
def derivedPayment (d : Debt) : ℚ :=
  jsNumOr d.monthlyPayment
    (match d.totalInstallments with
     | some ti => if ti = 0 then 0 else d.totalAmount / ti
     | none => 0)

/-- Monthly-equivalent normalisation of an expense as computed in the
analytics loop (zero for a One-time expense outside the current month). -/
def normalizedExpense (now : Int) (e : Expense) : ℚ :=
  if e.frequency = Frequency.monthly then e.amount
  else if e.frequency = Frequency.oneTime ∧ sameMonth e.date now then e.amount
  else if e.frequency = Frequency.weekly then e.amount * 4
  else if e.frequency = Frequency.yearly then e.amount / 12
  else 0

/-- The filter selecting an unpaid expense for the projected cash flow:
Monthly always, One-time only when dated in the current month. -/
def pendingExpenseFilter (now : Int) (e : Expense) : Bool :=
  decide (e.isPaid = some false) &&
    (decide (e.frequency = Frequency.monthly) ||
      (decide (e.frequency = Frequency.oneTime) && sameMonth e.date now))

structure Analytics where
  netWorth : ℚ
  totalDebt : ℚ
  totalAssets : ℚ
  projectedBalance : ℚ
  monthResult : ℚ
  totalMonthlyIncome : ℚ
  totalMonthlyExpense : ℚ
  deriving DecidableEq

/-- The analytics computation of Dashboard.tsx: currency buckets built record
by record, then converted and summed per metric. -/
def analytics (data : FinancialState) (rates : RateTable) (mainCurrency : Currency)
    (now : Int) : Analytics :=
  let debtSum := bucketOf (fun d => d.currency) (fun d => d.remainingAmount) [] data.debts
  let receivedAssets := data.assets.filter (fun a => decide (a.isReceived ≠ some false))
  let assetSum := bucketOf (fun a => a.currency) (fun a => a.amount) [] receivedAssets
  let pcf1 := bucketOf (fun a => a.currency) (fun a => a.amount) [] receivedAssets
  let pcf2 := bucketOf (fun a => a.currency) (fun a => a.amount) pcf1
    (data.assets.filter (fun a => sameMonth a.date now && decide (a.isReceived = some false)))
  let pcf3 := bucketOf (fun e => e.currency) (fun e => -e.amount) pcf2
    (data.expenses.filter (pendingExpenseFilter now))
  let pcf4 := bucketOf (fun d => d.currency) (fun d => -(derivedPayment d)) pcf3
    (data.debts.filter (fun d =>
      d.isInstallment && decide (0 < derivedPayment d) && decide (jsDate now ≤ jsDate d.date)))
  let monthlyIncome := bucketOf (fun a => a.currency) (fun a => a.amount) []
    (data.assets.filter (fun a => sameMonth a.date now && decide (a.type = AssetType.income)))
  let me1 := bucketOf (fun e => e.currency) (fun e => normalizedExpense now e) []
    (data.expenses.filter (fun e => decide (0 < normalizedExpense now e)))
  let me2 := bucketOf (fun d => d.currency) (fun d => derivedPayment d) me1
    (data.debts.filter (fun d => d.isInstallment && decide (0 < derivedPayment d)))
  let totalDebt := mapSumConv rates mainCurrency debtSum
  let totalAssets := mapSumConv rates mainCurrency assetSum
  let projectedBalance := mapSumConv rates mainCurrency pcf4
  let totalMonthlyIncome := mapSumConv rates mainCurrency monthlyIncome
  let totalMonthlyExpense := mapSumConv rates mainCurrency me2
  { netWorth := totalAssets - totalDebt
    totalDebt := totalDebt
    totalAssets := totalAssets
    projectedBalance := projectedBalance
    monthResult := totalMonthlyIncome - totalMonthlyExpense
    totalMonthlyIncome := totalMonthlyIncome
    totalMonthlyExpense := totalMonthlyExpense }

/-! ## Drill-down listing (Dashboard.tsx, getDrilldownData) -/

inductive ItemType where
  | plus | minus | neutral
  deriving DecidableEq

structure DrillItem where
  label : String
  amount : ℚ
  currency : Currency
  converted : ℚ
  type : ItemType
  deriving DecidableEq

inductive MetricType where
  | netWorth | forecast | monthly | debt
  deriving DecidableEq

/-- The drill-down payment fallback d.monthlyPayment ||
(d.totalAmount / (d.totalInstallments || 1)); note it differs from
derivedPayment used by the analytics when totalInstallments is absent or 0. -/
def drillPayment (d : Debt) : ℚ :=
  jsNumOr d.monthlyPayment (d.totalAmount / jsNumOr d.totalInstallments 1)

/-- The drill-down line items of Dashboard.tsx for each headline metric. -/
def getDrilldownData (metric : MetricType) (data : FinancialState) (rates : RateTable)
    (cur : Currency) (now : Int) : List DrillItem :=
  match metric with
  | .forecast =>
      (data.assets.filter (fun a => decide (a.isReceived ≠ some false))).map
        (fun a => { label := jsStrOr a.title "Актив", amount := a.amount,
                    currency := a.currency,
                    converted := toDominant rates cur a.amount a.currency,
                    type := ItemType.neutral }) ++
      ((data.assets.filter (fun a => decide (a.isReceived = some false))).filter
          (fun a => sameMonth a.date now)).map
        (fun a => { label := "Ожидается: " ++ a.title, amount := a.amount,
                    currency := a.currency,
                    converted := toDominant rates cur a.amount a.currency,
                    type := ItemType.plus }) ++
      ((data.expenses.filter (fun e => decide (e.isPaid = some false))).filter
          (fun e => decide (e.frequency = Frequency.monthly) ||
            (decide (e.frequency = Frequency.oneTime) && sameMonth e.date now))).map
        (fun e => { label := "План: " ++ e.title, amount := e.amount,
                    currency := e.currency,
                    converted := toDominant rates cur e.amount e.currency,
                    type := ItemType.minus }) ++
      (data.debts.filterMap (fun d =>
        if d.isInstallment ∧ 0 < d.remainingAmount ∧ jsDate now ≤ jsDate d.date then
          some { label := "Платеж: " ++ d.title, amount := drillPayment d,
                 currency := d.currency,
                 converted := toDominant rates cur (drillPayment d) d.currency,
                 type := ItemType.minus }
        else none))
  | .monthly =>
      ((data.assets.filter (fun a => decide (a.type = AssetType.income))).filter
          (fun a => sameMonth a.date now)).map
        (fun a => { label := a.title, amount := a.amount, currency := a.currency,
                    converted := toDominant rates cur a.amount a.currency,
                    type := ItemType.plus }) ++
      (data.expenses.filterMap (fun e =>
        let amt : ℚ :=
          if e.frequency = Frequency.monthly then e.amount
          else if e.frequency = Frequency.oneTime ∧ sameMonth e.date now then e.amount
          else 0
        if 0 < amt then
          some { label := e.title, amount := amt, currency := e.currency,
                 converted := toDominant rates cur amt e.currency,
                 type := ItemType.minus }
        else none)) ++
      (data.debts.filterMap (fun d =>
        if d.isInstallment then
          some { label := "Кредит: " ++ d.title, amount := drillPayment d,
                 currency := d.currency,
                 converted := toDominant rates cur (drillPayment d) d.currency,
                 type := ItemType.minus }
        else none))
  | .netWorth =>
      (data.assets.filter (fun a => decide (a.isReceived ≠ some false))).map
        (fun a => { label := a.title, amount := a.amount, currency := a.currency,
                    converted := toDominant rates cur a.amount a.currency,
                    type := ItemType.plus }) ++
      data.debts.map
        (fun d => { label := d.title, amount := d.remainingAmount, currency := d.currency,
                    converted := toDominant rates cur d.remainingAmount d.currency,
                    type := ItemType.minus })
  | .debt =>
      data.debts.map
        (fun d => { label := d.title, amount := d.remainingAmount, currency := d.currency,
                    converted := toDominant rates cur d.remainingAmount d.currency,
                    type := ItemType.minus })

/-- Signed total of a drill-down listing: debit items count negatively,
credit and neutral items positively (neutral items are the current balances
of the forecast view, which the forecast formula adds). -/
def signedSum (items : List DrillItem) : ℚ :=
  items.foldl
    (fun acc it =>
      match it.type with
      | ItemType.minus => acc - it.converted
      | _ => acc + it.converted) 0

/-- Plain total of the converted values of a drill-down listing. -/
def convertedSum (items : List DrillItem) : ℚ :=
  items.foldl (fun acc it => acc + it.converted) 0

/-! ## Periodic scan (App.tsx, checkUpdates): auto-credit resolver and
reminder scanner -/

/-- One asset through the auto-credit step: a pending (falsy isReceived)
asset with truthy autoCredit whose date is past or present is flipped to
received; every other asset is returned unchanged. -/
def autoCreditStep (now : Int) (a : Asset) : Asset :=
  if ¬ optBoolTruthy a.isReceived ∧ optBoolTruthy a.autoCredit then
    if a.date ≤ now then { a with isReceived := some true } else a
  else a

/-- Target due date for a recurring monthly obligation: day d placed in the
current month, rolled forward one month when strictly earlier than
now minus one day. -/
def monthlyTarget (now d : Int) : Int :=
  let t1 := jsSetDate now d
  if t1 < now - dayMs then jsAddMonth t1 else t1

/-- Reminder branch for a Monthly expense with a truthy dayOfMonth. -/
def monthlyReminder (now : Int) (existing : List String) (e : Expense) :
    List AppNotification :=
  if e.frequency = Frequency.monthly ∧ optIntTruthy e.dayOfMonth then
    match e.dayOfMonth with
    | some d =>
        let target := monthlyTarget now d
        let diffDays := ceilDiv (target - now) dayMs
        if 0 ≤ diffDays ∧ diffDays ≤ 3 then
          let notifId := "notif_exp_" ++ e.id ++ "_" ++ toString (jsMonth0 target)
          if notifId ∈ existing then []
          else [{ id := notifId, title := "Напоминание об оплате",
                  message := "Скоро оплата: " ++ e.title ++ " (" ++ toString e.amount
                    ++ " " ++ e.currency.code ++ ")",
                  date := now, isRead := false, type := NotifType.expense }]
        else []
    | none => []
  else []

/-- Reminder branch for an unpaid expense without a dayOfMonth (the planned
one-time branch of the scanner). -/
def planReminder (now : Int) (existing : List String) (e : Expense) :
    List AppNotification :=
  if ¬ optBoolTruthy e.isPaid ∧ ¬ optIntTruthy e.dayOfMonth then
    let diffDays := ceilDiv (e.date - now) dayMs
    if 0 ≤ diffDays ∧ diffDays ≤ 3 then
      let notifId := "notif_exp_plan_" ++ e.id
      if notifId ∈ existing then []
      else [{ id := notifId, title := "Плановый расход",
              message := "Запланированный расход: " ++ e.title,
              date := now, isRead := false, type := NotifType.expense }]
    else []
  else []

/-- Both reminder branches the scanner evaluates for one expense. -/
def expenseReminders (now : Int) (existing : List String) (e : Expense) :
    List AppNotification :=
  monthlyReminder now existing e ++ planReminder now existing e

/-- Reminder branch for an installment debt with positive remainingAmount,
using the day of month of the debt's creation date as the due day. -/
def debtReminder (now : Int) (existing : List String) (d : Debt) :
    List AppNotification :=
  if d.isInstallment = true ∧ 0 < d.remainingAmount then
    let target := monthlyTarget now (jsDate d.date)
    let diffDays := ceilDiv (target - now) dayMs
    if 0 ≤ diffDays ∧ diffDays ≤ 3 then
      let notifId := "notif_debt_" ++ d.id ++ "_" ++ toString (jsMonth0 target)
      if notifId ∈ existing then []
      else [{ id := notifId, title := "Напоминание о долге",
              message := "Платеж по кредиту: " ++ d.title,
              date := now, isRead := false, type := NotifType.debt }]
    else []
  else []

/-- The batch of new notifications one scan appends, deduplicated against
the ids already present in the notification list. -/
def scanNewNotifs (data : FinancialState) (now : Int) : List AppNotification :=
  let existing := data.notifications.map (fun n => n.id)
  data.expenses.flatMap (expenseReminders now existing) ++
    data.debts.flatMap (debtReminder now existing)

/-- One run of checkUpdates: the auto-credit step over every asset, then the
reminder batch appended to the notification list. -/
def checkUpdates (data : FinancialState) (now : Int) : FinancialState :=
  { data with
      assets := data.assets.map (autoCreditStep now)
      notifications := data.notifications ++ scanNewNotifs data now }

/-! ## Save path (ReportsView.tsx, handleSave, debt branch) with IEEE-style
number semantics -/

/-- JavaScript double idealised as a rational extended with the infinities
and NaN; signed zero is not modelled, a division by the (unsigned) zero
takes the positive-zero branch. -/
inductive JsNum where
  | num (q : ℚ) | posInf | negInf | nan
  deriving DecidableEq

def JsNum.isNaN : JsNum → Bool
  | nan => true
  | _ => false

def JsNum.sub : JsNum → JsNum → JsNum
  | nan, _ => nan
  | _, nan => nan
  | num a, num b => num (a - b)
  | num _, posInf => negInf
  | num _, negInf => posInf
  | posInf, num _ => posInf
  | negInf, num _ => negInf
  | posInf, posInf => nan
  | posInf, negInf => posInf
  | negInf, posInf => negInf
  | negInf, negInf => nan

def JsNum.mul : JsNum → JsNum → JsNum
  | nan, _ => nan
  | _, nan => nan
  | num a, num b => num (a * b)
  | num a, posInf => if a = 0 then nan else if 0 < a then posInf else negInf
  | posInf, num a => if a = 0 then nan else if 0 < a then posInf else negInf
  | num a, negInf => if a = 0 then nan else if 0 < a then negInf else posInf
  | negInf, num a => if a = 0 then nan else if 0 < a then negInf else posInf
  | posInf, posInf => posInf
  | posInf, negInf => negInf
  | negInf, posInf => negInf
  | negInf, negInf => posInf

def JsNum.div : JsNum → JsNum → JsNum
  | nan, _ => nan
  | _, nan => nan
  | num a, num b =>
      if b = 0 then (if a = 0 then nan else if 0 < a then posInf else negInf)
      else num (a / b)
  | num _, posInf => num 0
  | num _, negInf => num 0
  | posInf, num b => if 0 ≤ b then posInf else negInf
  | negInf, num b => if 0 ≤ b then negInf else posInf
  | _, _ => nan

/-- The comparison x > 0 on a JavaScript number (false on NaN). -/
def JsNum.gtZero : JsNum → Bool
  | num a => decide (0 < a)
  | posInf => true
  | _ => false

/-- Consume leading decimal digits: accumulated value, count consumed, rest. -/
def takeDigits : List Char → ℚ → Nat → ℚ × Nat × List Char
  | [], acc, k => (acc, k, [])
  | c :: cs, acc, k =>
      if c.isDigit then takeDigits cs (acc * 10 + ((c.toNat - 48 : ℕ) : ℚ)) (k + 1)
      else (acc, k, c :: cs)

/-- Consume leading fraction digits at the given place value. -/
def takeFrac : List Char → ℚ → ℚ → ℚ × List Char
  | [], acc, _ => (acc, [])
  | c :: cs, acc, scale =>
      if c.isDigit then takeFrac cs (acc + ((c.toNat - 48 : ℕ) : ℚ) * scale) (scale / 10)
      else (acc, c :: cs)

/-- The decimal-literal fragment of parseFloat: optional sign, integer
digits, optional fraction; trailing characters ignored; NaN when no digit is
present. Exponents, Infinity literals and leading whitespace do not occur on
the embedded code paths and are omitted. -/
def jsParseFloat (s : String) : JsNum :=
  let cs := s.toList
  let signAndRest : ℚ × List Char :=
    match cs with
    | '-' :: rest => (-1, rest)
    | '+' :: rest => (1, rest)
    | _ => (1, cs)
  let ipr := takeDigits signAndRest.2 0 0
  match ipr.2.2 with
  | '.' :: rest =>
      let fpr := takeFrac rest 0 (1 / 10)
      if ipr.2.1 = 0 ∧ rest.length = fpr.2.length then JsNum.nan
      else JsNum.num (signAndRest.1 * (ipr.1 + fpr.1))
  | _ => if ipr.2.1 = 0 then JsNum.nan else JsNum.num (signAndRest.1 * ipr.1)

/-- The form state consumed by the debt branch of handleSave: the amount is
the raw input string, the installment counters come through parseInt. -/
structure DebtFormData where
  title : String
  amount : String
  currency : Currency
  source : String
  isInstallment : Bool
  totalInstallments : JsNum
  paidInstallments : JsNum
  startDate : Option Int
  deriving DecidableEq

/-- A debt record as produced by the save path, with IEEE-style fields. -/
structure DebtJs where
  id : String
  date : Int
  title : String
  currency : Currency
  source : String
  totalAmount : JsNum
  remainingAmount : JsNum
  isInstallment : Bool
  totalInstallments : Option JsNum
  paidInstallments : Option JsNum
  monthlyPayment : Option JsNum
  deriving DecidableEq

/-- The debt branch of handleSave: none when the falsy-title-or-amount guard
rejects, otherwise the debt object passed to onAddDebt or onUpdateDebt.
editing carries the id and original date when an existing record is edited;
newId stands for Date.now().toString(). -/
def handleSaveDebt (fd : DebtFormData) (editing : Option (String × Int))
    (newId : String) (now : Int) : Option DebtJs :=
  if fd.title = "" ∨ fd.amount = "" then none
  else
    let date : Int :=
      if fd.isInstallment ∧ fd.startDate.isSome then fd.startDate.getD now
      else match editing with | some p => p.2 | none => now
    let totalAmount := jsParseFloat fd.amount
    let paidAmount :=
      if fd.isInstallment then
        JsNum.mul (JsNum.div totalAmount fd.totalInstallments) fd.paidInstallments
      else JsNum.num 0
    let monthlyPayment :=
      if fd.isInstallment ∧ fd.totalInstallments.gtZero then
        some (JsNum.div totalAmount fd.totalInstallments)
      else none
    some { id := (match editing with | some p => p.1 | none => newId)
           date := date
           title := fd.title
           currency := fd.currency
           source := jsStrOr fd.source "Не указан"
           totalAmount := totalAmount
           remainingAmount := JsNum.sub totalAmount paidAmount
           isInstallment := fd.isInstallment
           totalInstallments := if fd.isInstallment then some fd.totalInstallments else none
           paidInstallments := if fd.isInstallment then some fd.paidInstallments else none
           monthlyPayment := monthlyPayment }

/-! ## Category breakdown (ReportsView.tsx, categoryData) -/

/-- Grouping key of an expense: its category, with the generic label for an
empty category. -/
def categoryKey (e : Expense) : String := jsStrOr e.category "Прочее"

/-- The per-category breakdown of the current month's expenses, converted to
the dominant currency and sorted descending by value. -/
def categoryData (expenses : List Expense) (rates : RateTable) (cur : Currency)
    (now : Int) : List (String × ℚ) :=
  let monthlyExpenses := expenses.filter (fun e => sameMonth e.date now)
  let map := monthlyExpenses.foldl
    (fun m e => addToMap m (categoryKey e) (toDominant rates cur e.amount e.currency)) []
  map.insertionSort (fun p q => q.2 ≤ p.2)

/-! ## Specification-side formulas (written from the words of the spec and
the claims, for comparison with the code-side computations above) -/

/-- The Projected Balance of claim C2 and spec section 4.2, written as the
four direct sums of the spec text; its installment-debt clause subtracts the
monthly payment exactly for installment debts with remainingAmount greater
than 0 whose due day has not yet passed this month. -/
def projectedBalanceClaim (data : FinancialState) (rates : RateTable)
    (cur : Currency) (now : Int) : ℚ :=
  ((data.assets.filter (fun a => decide (a.isReceived ≠ some false))).map
      (fun a => toDominant rates cur a.amount a.currency)).sum
  + ((data.assets.filter (fun a =>
        decide (a.isReceived = some false) && sameMonth a.date now)).map
      (fun a => toDominant rates cur a.amount a.currency)).sum
  - ((data.expenses.filter (fun e =>
        decide (e.isPaid = some false) &&
          (decide (e.frequency = Frequency.monthly) ||
            (decide (e.frequency = Frequency.oneTime) && sameMonth e.date now)))).map
      (fun e => toDominant rates cur e.amount e.currency)).sum
  - ((data.debts.filter (fun d =>
        d.isInstallment && decide (0 < d.remainingAmount) &&
          decide (jsDate now ≤ jsDate d.date))).map
      (fun d => toDominant rates cur (derivedPayment d) d.currency)).sum

/-- The Monthly Result of claim C4 and spec section 4.2: income assets dated
in the current month, minus every expense normalised to a monthly figure,
minus every installment debt's monthly payment regardless of due-day timing. -/
def monthlyResultClaim (data : FinancialState) (rates : RateTable)
    (cur : Currency) (now : Int) : ℚ :=
  ((data.assets.filter (fun a =>
      decide (a.type = AssetType.income) && sameMonth a.date now)).map
      (fun a => toDominant rates cur a.amount a.currency)).sum
  - (data.expenses.map
      (fun e => toDominant rates cur (normalizedExpense now e) e.currency)).sum
  - ((data.debts.filter (fun d => d.isInstallment)).map
      (fun d => toDominant rates cur (derivedPayment d) d.currency)).sum

/-! ## Association-list lookup used to reason about the grouped maps -/

/-- Value stored under a key in an association list (the map[key] read). -/
def findVal {κ : Type} [DecidableEq κ] (m : List (κ × ℚ)) (c : κ) : Option ℚ :=
  match m with
  | [] => none
  | (k, w) :: rest => if k = c then some w else findVal rest c

/-! ## Concrete fixtures for counterexamples and witnesses -/

/-- Rate table with every entry absent. -/
def ratesEmpty : RateTable := fun _ => none

/-- Rate table with USD anchor 1 and RUB 92.5. -/
def ratesW : RateTable := fun c =>
  match c with
  | Currency.USD => some 1
  | Currency.RUB => some (185 / 2)
  | _ => none

/-- A Weekly expense of 12; its monthly-normalised figure 48 enters the
headline Monthly Result but no drill-down line item is generated for it. -/
def weeklyExpense : Expense :=
  { id := "w1", title := "Gym", amount := 12, currency := Currency.USD,
    category := "Health", frequency := Frequency.weekly, date := 0,
    dayOfMonth := none, isPaid := some true }

/-- Ledger holding only the Weekly expense. -/
def weeklyLedger : FinancialState :=
  { debts := [], expenses := [weeklyExpense], assets := [], goals := [],
    notifications := [] }

/-- An installment debt fully paid off (remainingAmount 0) but with a stored
monthly payment of 100 and a due day on the 28th. -/
def paidOffDebt : Debt :=
  { id := "d1", title := "Phone", source := "Store", totalAmount := 1200,
    remainingAmount := 0, currency := Currency.USD, isInstallment := true,
    totalInstallments := some 12, paidInstallments := some 12,
    monthlyPayment := some 100, date := 27 * dayMs }

/-- Ledger holding only the paid-off installment debt. -/
def paidOffLedger : FinancialState :=
  { debts := [paidOffDebt], expenses := [], assets := [], goals := [],
    notifications := [] }

/-- Timestamp of 1970-01-05 00:00, whose day of month is 5. -/
def jan5 : Int := 4 * dayMs

/-- An income asset dated at the epoch. -/
def incomeAsset : Asset :=
  { id := "a1", title := "Job", amount := 100, currency := Currency.USD,
    type := AssetType.income, isReceived := some true, autoCredit := none,
    date := 0 }

/-- An installment debt with a stored monthly payment of 100. -/
def activeDebt : Debt :=
  { id := "d2", title := "Car", source := "Bank", totalAmount := 1200,
    remainingAmount := 600, currency := Currency.USD, isInstallment := true,
    totalInstallments := some 12, paidInstallments := some 6,
    monthlyPayment := some 100, date := 0 }

/-- Ledger combining the income asset, the Weekly expense and the active
installment debt. -/
def monthlyLedger : FinancialState :=
  { debts := [activeDebt], expenses := [weeklyExpense], assets := [incomeAsset],
    goals := [], notifications := [] }

/-- A Monthly expense with dayOfMonth 3, due two days after the epoch. -/
def rentExpense : Expense :=
  { id := "e1", title := "Rent", amount := 45000, currency := Currency.RUB,
    category := "Home", frequency := Frequency.monthly, date := 0,
    dayOfMonth := some 3, isPaid := some true }

/-- A pending asset with autoCredit set and a date already in the past. -/
def pendingAsset : Asset :=
  { id := "a2", title := "Bonus", amount := 500, currency := Currency.USD,
    type := AssetType.income, isReceived := some false, autoCredit := some true,
    date := -dayMs }

/-- An asset whose isReceived field is absent entirely. -/
def undefinedReceivedAsset : Asset :=
  { id := "a3", title := "Stash", amount := 700, currency := Currency.USD,
    type := AssetType.balance, isReceived := none, autoCredit := some true,
    date := -dayMs }

/-- Form state for an installment debt with totalInstallments 0: the guard
accepts it and the remainingAmount computation divides by 0. -/
def zeroInstallmentsForm : DebtFormData :=
  { title := "Loan", amount := "100", currency := Currency.USD, source := "",
    isInstallment := true, totalInstallments := JsNum.num 0,
    paidInstallments := JsNum.num 0, startDate := none }

/-- Two expenses in category Food: 50 dated January 1970 and 999 dated
December 1969, plus the epoch-dated Weekly expense in category Health. -/
def foodExpenses : List Expense :=
  [ { id := "f1", title := "Groceries", amount := 50, currency := Currency.USD,
      category := "Food", frequency := Frequency.oneTime, date := 0,
      dayOfMonth := none, isPaid := some true },
    { id := "f2", title := "Feast", amount := 999, currency := Currency.USD,
      category := "Food", frequency := Frequency.oneTime, date := -2 * dayMs,
      dayOfMonth := none, isPaid := some true },
    weeklyExpense ]

/-! ## Sum and bucket infrastructure lemmas -/

theorem foldl_add_sum {α : Type} (l : List α) (g : α → ℚ) (a : ℚ) :
    l.foldl (fun acc x => acc + g x) a = a + (l.map g).sum := by
  induction l generalizing a with
  | nil => simp
  | cons x xs ih => simp [ih, add_assoc]

theorem mapSumConv_eq_sum (rates : RateTable) (cur : Currency) (m : List (Currency × ℚ)) :
    mapSumConv rates cur m = (m.map (fun p => toDominant rates cur p.2 p.1)).sum := by
  unfold mapSumConv
  rw [foldl_add_sum]
  simp

theorem toDominant_add (rates : RateTable) (cur : Currency) (v w : ℚ) (k : Currency) :
    toDominant rates cur (v + w) k = toDominant rates cur v k + toDominant rates cur w k := by
  unfold toDominant
  split <;> ring

theorem toDominant_zero (rates : RateTable) (cur : Currency) (k : Currency) :
    toDominant rates cur 0 k = 0 := by
  unfold toDominant
  split <;> simp

theorem toDominant_neg (rates : RateTable) (cur : Currency) (v : ℚ) (k : Currency) :
    toDominant rates cur (-v) k = -toDominant rates cur v k := by
  unfold toDominant
  split <;> ring

theorem ite_zero_self (w : ℚ) : (if w = 0 then (0 : ℚ) else w) = w := by
  split <;> simp_all

theorem sum_map_neg {α : Type} (l : List α) (f : α → ℚ) :
    (l.map (fun x => -f x)).sum = -(l.map f).sum := by
  induction l with
  | nil => simp
  | cons x xs ih => simp [ih]; ring

theorem addToMap_sum {κ : Type} [DecidableEq κ] (f : κ → ℚ → ℚ)
    (hf : ∀ k v w, f k (v + w) = f k v + f k w)
    (m : List (κ × ℚ)) (c : κ) (v : ℚ) :
    ((addToMap m c v).map (fun p => f p.1 p.2)).sum
      = (m.map (fun p => f p.1 p.2)).sum + f c v := by
  induction m with
  | nil => simp [addToMap]
  | cons p rest ih =>
      obtain ⟨k, w⟩ := p
      by_cases hk : k = c
      · subst hk
        simp [addToMap, ite_zero_self, hf]
        ring
      · simp [addToMap, hk, ih]
        ring

theorem bucketOf_sum {α : Type} (rates : RateTable) (cur : Currency)
    (key : α → Currency) (val : α → ℚ) (init : List (Currency × ℚ)) (l : List α) :
    mapSumConv rates cur (bucketOf key val init l)
      = mapSumConv rates cur init
        + (l.map (fun a => toDominant rates cur (val a) (key a))).sum := by
  induction l generalizing init with
  | nil => simp [bucketOf]
  | cons a l ih =>
      show mapSumConv rates cur (bucketOf key val (addToMap init (key a) (val a)) l) = _
      rw [ih]
      rw [mapSumConv_eq_sum, mapSumConv_eq_sum,
        addToMap_sum (fun k v => toDominant rates cur v k)
          (fun k v w => toDominant_add rates cur v w k)]
      simp
      ring

theorem mapSumConv_nil (rates : RateTable) (cur : Currency) :
    mapSumConv rates cur [] = 0 := rfl

theorem filter_sum_of_zero {α : Type} (l : List α) (p : α → Bool) (F : α → ℚ)
    (h : ∀ x ∈ l, p x = false → F x = 0) :
    ((l.filter p).map F).sum = (l.map F).sum := by
  induction l with
  | nil => simp
  | cons x xs ih =>
      by_cases hp : p x = true
      · simp [List.filter_cons, hp]
        exact ih (fun y hy => h y (List.mem_cons_of_mem x hy))
      · have hx0 : F x = 0 := h x (List.mem_cons_self x xs) (Bool.not_eq_true _ ▸ by simpa using hp)
        simp [List.filter_cons, hp, hx0]
        exact ih (fun y hy => h y (List.mem_cons_of_mem x hy))

/-! ## Decomposition of the analytics metrics into direct sums -/

theorem analytics_totalDebt (data : FinancialState) (rates : RateTable)
    (cur : Currency) (now : Int) :
    (analytics data rates cur now).totalDebt
      = (data.debts.map (fun d => toDominant rates cur d.remainingAmount d.currency)).sum := by
  simp [analytics, bucketOf_sum, mapSumConv_nil]

theorem analytics_totalAssets (data : FinancialState) (rates : RateTable)
    (cur : Currency) (now : Int) :
    (analytics data rates cur now).totalAssets
      = ((data.assets.filter (fun a => decide (a.isReceived ≠ some false))).map
          (fun a => toDominant rates cur a.amount a.currency)).sum := by
  simp [analytics, bucketOf_sum, mapSumConv_nil]

theorem analytics_netWorth (data : FinancialState) (rates : RateTable)
    (cur : Currency) (now : Int) :
    (analytics data rates cur now).netWorth
      = ((data.assets.filter (fun a => decide (a.isReceived ≠ some false))).map
          (fun a => toDominant rates cur a.amount a.currency)).sum
        - (data.debts.map (fun d => toDominant rates cur d.remainingAmount d.currency)).sum := by
  simp [analytics, bucketOf_sum, mapSumConv_nil]

theorem analytics_projectedBalance (data : FinancialState) (rates : RateTable)
    (cur : Currency) (now : Int) :
    (analytics data rates cur now).projectedBalance
      = ((data.assets.filter (fun a => decide (a.isReceived ≠ some false))).map
          (fun a => toDominant rates cur a.amount a.currency)).sum
        + ((data.assets.filter (fun a =>
              sameMonth a.date now && decide (a.isReceived = some false))).map
            (fun a => toDominant rates cur a.amount a.currency)).sum
        - ((data.expenses.filter (pendingExpenseFilter now)).map
            (fun e => toDominant rates cur e.amount e.currency)).sum
        - ((data.debts.filter (fun d =>
              d.isInstallment && decide (0 < derivedPayment d) &&
                decide (jsDate now ≤ jsDate d.date))).map
            (fun d => toDominant rates cur (derivedPayment d) d.currency)).sum := by
  simp only [analytics]
  rw [bucketOf_sum, bucketOf_sum, bucketOf_sum, bucketOf_sum, mapSumConv_nil]
  simp only [toDominant_neg, sum_map_neg]
  ring

theorem analytics_monthResult (data : FinancialState) (rates : RateTable)
    (cur : Currency) (now : Int) :
    (analytics data rates cur now).monthResult
      = ((data.assets.filter (fun a =>
            sameMonth a.date now && decide (a.type = AssetType.income))).map
          (fun a => toDominant rates cur a.amount a.currency)).sum
        - ((data.expenses.filter (fun e => decide (0 < normalizedExpense now e))).map
            (fun e => toDominant rates cur (normalizedExpense now e) e.currency)).sum
        - ((data.debts.filter (fun d => d.isInstallment && decide (0 < derivedPayment d))).map
            (fun d => toDominant rates cur (derivedPayment d) d.currency)).sum := by
  simp only [analytics]
  rw [bucketOf_sum, bucketOf_sum, bucketOf_sum, mapSumConv_nil]
  ring

/-! ## Signed sums of drill-down listings -/

theorem signedSum_foldl (l : List DrillItem) (a : ℚ) :
    l.foldl (fun acc it =>
        match it.type with
        | ItemType.minus => acc - it.converted
        | _ => acc + it.converted) a
      = a + (l.map (fun it =>
          match it.type with
          | ItemType.minus => -it.converted
          | _ => it.converted)).sum := by
  induction l generalizing a with
  | nil => simp
  | cons x xs ih =>
      cases hx : x.type <;> simp [hx, ih] <;> ring

theorem signedSum_eq_sum (l : List DrillItem) :
    signedSum l
      = (l.map (fun it =>
          match it.type with
          | ItemType.minus => -it.converted
          | _ => it.converted)).sum := by
  unfold signedSum
  rw [signedSum_foldl]
  simp

theorem convertedSum_eq_sum (l : List DrillItem) :
    convertedSum l = (l.map (fun it => it.converted)).sum := by
  unfold convertedSum
  rw [foldl_add_sum]
  simp

/-- Claim C1 (counterexample): for the ledger holding one Weekly expense of
12, the headline Monthly Result is -48 while the monthly drill-down produces
no line item at all, so the signed drill-down total 0 differs from the
headline metric by 48, far beyond any floating-point tolerance. -/
theorem monthlyDrilldownMismatch :
    signedSum (getDrilldownData MetricType.monthly weeklyLedger ratesEmpty Currency.USD 0)
        = 0
      ∧ (analytics weeklyLedger ratesEmpty Currency.USD 0).monthResult = -48
      ∧ signedSum (getDrilldownData MetricType.monthly weeklyLedger ratesEmpty Currency.USD 0)
          ≠ (analytics weeklyLedger ratesEmpty Currency.USD 0).monthResult := by
  have h1 : signedSum (getDrilldownData MetricType.monthly weeklyLedger ratesEmpty
      Currency.USD 0) = 0 := by
    simp [getDrilldownData, weeklyLedger, weeklyExpense, signedSum, sameMonth]
  have h2 : (analytics weeklyLedger ratesEmpty Currency.USD 0).monthResult = -48 := by
    rw [analytics_monthResult]
    simp [weeklyLedger, weeklyExpense, normalizedExpense, toDominant, sameMonth]
    norm_num
  exact ⟨h1, h2, by rw [h1, h2]; norm_num⟩

/-- Claim C1 (amended): the drill-down/headline agreement holds for the Net
Worth and Total Debt metrics (for Total Debt every line item is classified
as a debit and the converted values sum to the headline figure); it fails in
general for projectedBalance and monthlyResult, whose drill-downs filter
differently from the headline computation. -/
theorem drilldownNetWorthTotalDebtConsistent (data : FinancialState)
    (rates : RateTable) (cur : Currency) (now : Int) :
    signedSum (getDrilldownData MetricType.netWorth data rates cur now)
        = (analytics data rates cur now).netWorth
      ∧ convertedSum (getDrilldownData MetricType.debt data rates cur now)
          = (analytics data rates cur now).totalDebt := by
  constructor
  · rw [analytics_netWorth, signedSum_eq_sum]
    simp only [getDrilldownData, List.map_append, List.sum_append, List.map_map]
    show ((data.assets.filter (fun a => decide (a.isReceived ≠ some false))).map
          (fun a => toDominant rates cur a.amount a.currency)).sum
        + (data.debts.map
            (fun d => -toDominant rates cur d.remainingAmount d.currency)).sum = _
    rw [sum_map_neg]
    ring
  · rw [analytics_totalDebt, convertedSum_eq_sum]
    simp only [getDrilldownData, List.map_map]
    rfl

/-- Claim C2 (counterexample): for the ledger holding one fully paid-off
installment debt (remainingAmount 0) with stored monthly payment 100 and
due day 28, computed on the 5th, the code subtracts the payment (headline
-100) while the claim's formula, which requires remainingAmount greater
than 0, yields 0. -/
theorem projectedBalanceRemainingAmountCounterexample :
    (analytics paidOffLedger ratesEmpty Currency.USD jan5).projectedBalance = -100
      ∧ projectedBalanceClaim paidOffLedger ratesEmpty Currency.USD jan5 = 0
      ∧ (analytics paidOffLedger ratesEmpty Currency.USD jan5).projectedBalance
          ≠ projectedBalanceClaim paidOffLedger ratesEmpty Currency.USD jan5 := by
  have hdue : jsDate jan5 ≤ jsDate ((27 : Int) * dayMs) := by decide
  have h1 : (analytics paidOffLedger ratesEmpty Currency.USD jan5).projectedBalance
      = -100 := by
    rw [analytics_projectedBalance]
    simp [paidOffLedger, paidOffDebt, derivedPayment, jsNumOr, toDominant, ratesEmpty,
      pendingExpenseFilter]
    norm_num [List.filter_cons, hdue]
  have h2 : projectedBalanceClaim paidOffLedger ratesEmpty Currency.USD jan5 = 0 := by
    simp [projectedBalanceClaim, paidOffLedger, paidOffDebt]
  exact ⟨h1, h2, by rw [h1, h2]; norm_num⟩

/-- Claim C2 (amended): in the Projected Balance metric an installment
debt's monthly payment is subtracted exactly for every installment debt
whose derived monthly payment is positive (remainingAmount is not consulted)
and whose due day-of-month has not yet passed this month; in particular a
debt whose due day 5 is below today's day 10 is not subtracted. -/
theorem projectedBalancePaymentGate (data : FinancialState) (rates : RateTable)
    (cur : Currency) (now : Int) :
    (analytics data rates cur now).projectedBalance
      = ((data.assets.filter (fun a => decide (a.isReceived ≠ some false))).map
          (fun a => toDominant rates cur a.amount a.currency)).sum
        + ((data.assets.filter (fun a =>
              sameMonth a.date now && decide (a.isReceived = some false))).map
            (fun a => toDominant rates cur a.amount a.currency)).sum
        - ((data.expenses.filter (fun e =>
              decide (e.isPaid = some false) &&
                (decide (e.frequency = Frequency.monthly) ||
                  (decide (e.frequency = Frequency.oneTime) && sameMonth e.date now)))).map
            (fun e => toDominant rates cur e.amount e.currency)).sum
        - ((data.debts.filter (fun d =>
              d.isInstallment && decide (0 < derivedPayment d) &&
                decide (jsDate now ≤ jsDate d.date))).map
            (fun d => toDominant rates cur (derivedPayment d) d.currency)).sum := by
  rw [analytics_projectedBalance]
  rfl

/-- Claim C4: for every ledger whose expense amounts and derived installment
payments are nonnegative Money magnitudes, the Monthly Result equals the
converted current-month income minus the converted normalised monthly
expenses over all expenses minus the converted installment payment of every
installment debt, regardless of due-day timing. -/
theorem monthResultFormula (data : FinancialState) (rates : RateTable)
    (cur : Currency) (now : Int)
    (hE : ∀ e ∈ data.expenses, 0 ≤ e.amount)
    (hD : ∀ d ∈ data.debts, 0 ≤ derivedPayment d) :
    (analytics data rates cur now).monthResult
      = monthlyResultClaim data rates cur now := by
  rw [analytics_monthResult]
  unfold monthlyResultClaim
  have hnorm : ∀ e ∈ data.expenses, 0 ≤ normalizedExpense now e := by
    intro e he
    have h0 := hE e he
    unfold normalizedExpense
    split_ifs <;>
      first
        | exact h0
        | exact le_refl 0
        | exact div_nonneg h0 (by norm_num)
        | exact mul_nonneg h0 (by norm_num)
  have h1 : ((data.expenses.filter (fun e => decide (0 < normalizedExpense now e))).map
        (fun e => toDominant rates cur (normalizedExpense now e) e.currency)).sum
      = (data.expenses.map
        (fun e => toDominant rates cur (normalizedExpense now e) e.currency)).sum := by
    apply filter_sum_of_zero
    intro e he hp
    have : ¬ (0 < normalizedExpense now e) := by simpa using hp
    have hz : normalizedExpense now e = 0 := le_antisymm (not_lt.mp this) (hnorm e he)
    rw [hz, toDominant_zero]
  have h2 : ((data.debts.filter (fun d => d.isInstallment && decide (0 < derivedPayment d))).map
        (fun d => toDominant rates cur (derivedPayment d) d.currency)).sum
      = ((data.debts.filter (fun d => d.isInstallment)).map
        (fun d => toDominant rates cur (derivedPayment d) d.currency)).sum := by
    rw [show (fun d => d.isInstallment && decide (0 < derivedPayment d))
        = (fun (d : Debt) => decide (0 < derivedPayment d) && d.isInstallment) from
      funext fun d => Bool.and_comm _ _]
    rw [← List.filter_filter]
    apply filter_sum_of_zero
    intro d hd hp
    have : ¬ (0 < derivedPayment d) := by simpa using hp
    have hz : derivedPayment d = 0 :=
      le_antisymm (not_lt.mp this) (hD d (List.mem_of_mem_filter hd))
    rw [hz, toDominant_zero]
  have hInc : (data.assets.filter (fun a =>
        sameMonth a.date now && decide (a.type = AssetType.income)))
      = (data.assets.filter (fun a =>
        decide (a.type = AssetType.income) && sameMonth a.date now)) := by
    congr 1
    exact funext fun a => Bool.and_comm _ _
  rw [h1, h2, hInc]

/-- Claim C4 (witness): the formula instantiated on a concrete ledger with
one current-month income of 100, one Weekly expense of 12 and one
installment debt paying 100 a month gives -48. -/
theorem monthResultFormulaWitness :
    (analytics monthlyLedger ratesEmpty Currency.USD 0).monthResult
        = monthlyResultClaim monthlyLedger ratesEmpty Currency.USD 0
      ∧ monthlyResultClaim monthlyLedger ratesEmpty Currency.USD 0 = -48 := by
  refine ⟨monthResultFormula monthlyLedger ratesEmpty Currency.USD 0 ?_ ?_, ?_⟩
  · intro e he
    simp only [monthlyLedger, List.mem_singleton] at he
    subst he
    norm_num [weeklyExpense]
  · intro d hd
    simp only [monthlyLedger, List.mem_singleton] at hd
    subst hd
    norm_num [activeDebt, derivedPayment, jsNumOr]
  · simp [monthlyResultClaim, monthlyLedger, incomeAsset, weeklyExpense, activeDebt,
      normalizedExpense, derivedPayment, jsNumOr, toDominant, sameMonth]
    norm_num

/-- Claim C6: one run of the auto-credit step flips a pending asset with
autoCredit set and a past-or-present date to received, changing only the
isReceived field; assets with autoCredit false or absent, already received
assets, and assets with a future date are returned unchanged. -/
theorem autoCreditTransition (now : Int) (a : Asset) :
    (a.isReceived = some false → a.autoCredit = some true → a.date ≤ now →
        autoCreditStep now a = { a with isReceived := some true })
      ∧ (a.autoCredit = some false ∨ a.autoCredit = none → autoCreditStep now a = a)
      ∧ (a.isReceived = some true → autoCreditStep now a = a)
      ∧ (a.isReceived = some false → now < a.date → autoCreditStep now a = a) := by
  refine ⟨?_, ?_, ?_, ?_⟩
  · intro h1 h2 h3
    simp [autoCreditStep, h1, h2, h3, optBoolTruthy]
  · intro h
    rcases h with h | h <;> simp [autoCreditStep, h, optBoolTruthy]
  · intro h
    simp [autoCreditStep, h, optBoolTruthy]
  · intro h1 h2
    simp [autoCreditStep, h1, optBoolTruthy, not_le.mpr h2]

/-- Claim C6 (witness): the pending asset dated yesterday becomes received
after one step; the same asset with autoCredit cleared is unchanged. -/
theorem autoCreditTransitionWitness :
    autoCreditStep 0 pendingAsset = { pendingAsset with isReceived := some true }
      ∧ autoCreditStep 0 { pendingAsset with autoCredit := some false }
          = { pendingAsset with autoCredit := some false } := by
  exact ⟨(autoCreditTransition 0 pendingAsset).1 rfl rfl (by decide),
    (autoCreditTransition 0 { pendingAsset with autoCredit := some false }).2.1
      (Or.inl rfl)⟩

/-- Claim C10: an asset whose isReceived field is absent is counted as
received by the aggregation filter (isReceived is not the literal false) but
classified as pending by the scan's truthiness test, so with autoCredit set
and a past-or-present date the auto-credit step mutates it even though the
metrics already counted it. -/
theorem undefinedIsReceivedDivergence (now : Int) (a : Asset) (rates : RateTable)
    (cur : Currency) (h : a.isReceived = none) :
    decide (a.isReceived ≠ some false) = true
      ∧ optBoolTruthy a.isReceived = false
      ∧ (analytics ⟨[], [], [a], [], []⟩ rates cur now).totalAssets
          = toDominant rates cur a.amount a.currency
      ∧ (a.autoCredit = some true → a.date ≤ now →
          autoCreditStep now a = { a with isReceived := some true }
            ∧ autoCreditStep now a ≠ a) := by
  refine ⟨by simp [h], by simp [h, optBoolTruthy], ?_, ?_⟩
  · rw [analytics_totalAssets]
    simp [h]
  · intro h2 h3
    have hstep : autoCreditStep now a = { a with isReceived := some true } := by
      simp [autoCreditStep, h, h2, h3, optBoolTruthy]
    refine ⟨hstep, ?_⟩
    rw [hstep]
    intro heq
    have h' := congrArg Asset.isReceived heq
    simp [h] at h'

/-- Claim C10 (witness): the concrete asset with absent isReceived, truthy
autoCredit and date yesterday is flipped by the step at time 0. -/
theorem undefinedIsReceivedDivergenceWitness :
    autoCreditStep 0 undefinedReceivedAsset
        = { undefinedReceivedAsset with isReceived := some true }
      ∧ autoCreditStep 0 undefinedReceivedAsset ≠ undefinedReceivedAsset :=
  (undefinedIsReceivedDivergence 0 undefinedReceivedAsset ratesEmpty Currency.USD
    rfl).2.2.2 rfl (by decide)

/-- Claim C8: for distinct currencies the conversion returns
(amount / fromRate) * toRate where a missing or zero rate entry is replaced
by 1, so the divisor is never zero for any rate table. -/
theorem toDominantDefensive (rates : RateTable) (curr dom : Currency) (amount : ℚ)
    (h : curr ≠ dom) :
    toDominant rates dom amount curr
        = (amount / jsNumOr (rates curr) 1) * jsNumOr (rates dom) 1
      ∧ jsNumOr (rates curr) 1 ≠ 0
      ∧ (rates curr = none → jsNumOr (rates curr) 1 = 1)
      ∧ (rates curr = some 0 → jsNumOr (rates curr) 1 = 1) := by
  refine ⟨by simp [toDominant, h], ?_, ?_, ?_⟩
  · cases hr : rates curr with
    | none => simp [jsNumOr, hr]
    | some r =>
        simp only [jsNumOr, hr]
        split <;> simp_all
  · intro hn
    simp [jsNumOr, hn]
  · intro h0
    simp [jsNumOr, h0]

/-- Claim C8 (witness): converting 185 RUB at rate 92.5 into the USD anchor
gives 2, through the stated formula with nonzero divisor. -/
theorem toDominantDefensiveWitness :
    toDominant ratesW Currency.USD 185 Currency.RUB
        = (185 / jsNumOr (ratesW Currency.RUB) 1) * jsNumOr (ratesW Currency.USD) 1
      ∧ jsNumOr (ratesW Currency.RUB) 1 ≠ 0
      ∧ toDominant ratesW Currency.USD 185 Currency.RUB = 2 := by
  refine ⟨(toDominantDefensive ratesW Currency.RUB Currency.USD 185 (by decide)).1,
    (toDominantDefensive ratesW Currency.RUB Currency.USD 185 (by decide)).2.1, ?_⟩
  simp [toDominant, ratesW, jsNumOr]

/-- Claim C7 (code bug): the save path accepts an installment debt form with
totalInstallments 0 (guard checks only emptiness of title and amount) and
the remainingAmount computation divides by the zero totalInstallments, so
the record handed to the ledger carries remainingAmount NaN; only the
monthlyPayment computation is guarded (it stays undefined). -/
theorem zeroInstallmentsNaN :
    (handleSaveDebt zeroInstallmentsForm none "42" 0).map (fun d => d.remainingAmount)
        = some JsNum.nan
      ∧ (handleSaveDebt zeroInstallmentsForm none "42" 0).map (fun d => d.monthlyPayment)
          = some none := by
  have hp : jsParseFloat "100" = JsNum.num 100 := by
    simp [jsParseFloat, takeDigits, takeFrac]
    norm_num
  constructor <;>
    simp [handleSaveDebt, zeroInstallmentsForm, hp, JsNum.div, JsNum.mul, JsNum.sub,
      JsNum.gtZero, jsStrOr]

/-! ## Idempotence machinery for the periodic scan -/

theorem autoCreditStep_idem (now : Int) (a : Asset) :
    autoCreditStep now (autoCreditStep now a) = autoCreditStep now a := by
  by_cases h1 : ¬ optBoolTruthy a.isReceived = true ∧ optBoolTruthy a.autoCredit = true
  · by_cases h2 : a.date ≤ now
    · have hstep : autoCreditStep now a = { a with isReceived := some true } := by
        unfold autoCreditStep
        rw [if_pos h1, if_pos h2]
      rw [hstep]
      have h' : ¬ (¬ optBoolTruthy ({ a with isReceived := some true } : Asset).isReceived
          = true ∧ optBoolTruthy ({ a with isReceived := some true } : Asset).autoCredit
          = true) := by
        simp [optBoolTruthy]
      unfold autoCreditStep
      rw [if_neg h']
    · have hstep : autoCreditStep now a = a := by
        unfold autoCreditStep
        rw [if_pos h1, if_neg h2]
      rw [hstep, hstep]
  · have hstep : autoCreditStep now a = a := by
      unfold autoCreditStep
      rw [if_neg h1]
    rw [hstep, hstep]

theorem flatMap_eq_nil_of {α β : Type} (l : List α) (f : α → List β)
    (h : ∀ a ∈ l, f a = []) : l.flatMap f = [] := by
  induction l with
  | nil => rfl
  | cons x xs ih =>
      simp only [List.flatMap_cons, h x (List.mem_cons_self x xs)]
      exact ih (fun a ha => h a (List.mem_cons_of_mem x ha))

theorem monthlyReminder_second (now : Int) (ex ex' : List String) (e : Expense)
    (hsub : ∀ s ∈ ex, s ∈ ex')
    (hcov : ∀ n ∈ monthlyReminder now ex e, n.id ∈ ex') :
    monthlyReminder now ex' e = [] := by
  simp only [monthlyReminder] at hcov ⊢
  split
  next hC =>
    rw [if_pos hC] at hcov
    cases hdom : e.dayOfMonth with
    | none => rfl
    | some d =>
        simp only [hdom] at hcov
        dsimp only
        split
        next hW =>
          rw [if_pos hW] at hcov
          split
          next => rfl
          next hmem =>
            exfalso
            by_cases hex : ("notif_exp_" ++ e.id ++ "_"
                ++ toString (jsMonth0 (monthlyTarget now d))) ∈ ex
            · exact hmem (hsub _ hex)
            · rw [if_neg hex] at hcov
              exact hmem (hcov _ (List.mem_singleton_self _))
        next => rfl
  next => rfl

theorem planReminder_second (now : Int) (ex ex' : List String) (e : Expense)
    (hsub : ∀ s ∈ ex, s ∈ ex')
    (hcov : ∀ n ∈ planReminder now ex e, n.id ∈ ex') :
    planReminder now ex' e = [] := by
  simp only [planReminder] at hcov ⊢
  split
  next hC =>
    rw [if_pos hC] at hcov
    split
    next hW =>
      rw [if_pos hW] at hcov
      split
      next => rfl
      next hmem =>
        exfalso
        by_cases hex : ("notif_exp_plan_" ++ e.id) ∈ ex
        · exact hmem (hsub _ hex)
        · rw [if_neg hex] at hcov
          exact hmem (hcov _ (List.mem_singleton_self _))
    next => rfl
  next => rfl

theorem debtReminder_second (now : Int) (ex ex' : List String) (d : Debt)
    (hsub : ∀ s ∈ ex, s ∈ ex')
    (hcov : ∀ n ∈ debtReminder now ex d, n.id ∈ ex') :
    debtReminder now ex' d = [] := by
  simp only [debtReminder] at hcov ⊢
  split
  next hC =>
    rw [if_pos hC] at hcov
    split
    next hW =>
      rw [if_pos hW] at hcov
      split
      next => rfl
      next hmem =>
        exfalso
        by_cases hex : ("notif_debt_" ++ d.id ++ "_"
            ++ toString (jsMonth0 (monthlyTarget now (jsDate d.date)))) ∈ ex
        · exact hmem (hsub _ hex)
        · rw [if_neg hex] at hcov
          exact hmem (hcov _ (List.mem_singleton_self _))
    next => rfl
  next => rfl

theorem scanNewNotifs_second_nil (data : FinancialState) (now : Int) :
    scanNewNotifs (checkUpdates data now) now = [] := by
  have hexp : (checkUpdates data now).expenses = data.expenses := rfl
  have hdebts : (checkUpdates data now).debts = data.debts := rfl
  have hnot : (checkUpdates data now).notifications
      = data.notifications ++ scanNewNotifs data now := rfl
  unfold scanNewNotifs
  rw [hexp, hdebts, hnot]
  have hsub : ∀ s ∈ data.notifications.map (fun n => n.id),
      s ∈ (data.notifications ++ scanNewNotifs data now).map (fun n => n.id) := by
    intro s hs
    rw [List.map_append]
    exact List.mem_append_left _ hs
  have hnew : ∀ n ∈ scanNewNotifs data now,
      n.id ∈ (data.notifications ++ scanNewNotifs data now).map (fun n => n.id) := by
    intro n hn
    rw [List.map_append]
    exact List.mem_append_right _ (List.mem_map_of_mem _ hn)
  rw [List.append_eq_nil]
  constructor
  · apply flatMap_eq_nil_of
    intro e he
    unfold expenseReminders
    rw [List.append_eq_nil]
    constructor
    · apply monthlyReminder_second now (data.notifications.map (fun n => n.id)) _ e hsub
      intro n hn
      apply hnew
      unfold scanNewNotifs
      apply List.mem_append_left
      exact List.mem_flatMap_of_mem he (List.mem_append_left _ hn)
    · apply planReminder_second now (data.notifications.map (fun n => n.id)) _ e hsub
      intro n hn
      apply hnew
      unfold scanNewNotifs
      apply List.mem_append_left
      exact List.mem_flatMap_of_mem he (List.mem_append_right _ hn)
  · apply flatMap_eq_nil_of
    intro d hd
    apply debtReminder_second now (data.notifications.map (fun n => n.id)) _ d hsub
    intro n hn
    apply hnew
    unfold scanNewNotifs
    apply List.mem_append_right
    exact List.mem_flatMap_of_mem hd hn

/-- Claim C3: the periodic scan is idempotent: at a fixed time the second
run appends zero new notifications and changes no asset, so its output
ledger equals its input ledger. -/
theorem scanIdempotent (data : FinancialState) (now : Int) :
    scanNewNotifs (checkUpdates data now) now = []
      ∧ checkUpdates (checkUpdates data now) now = checkUpdates data now := by
  have hnil := scanNewNotifs_second_nil data now
  refine ⟨hnil, ?_⟩
  show ({ checkUpdates data now with
      assets := (checkUpdates data now).assets.map (autoCreditStep now)
      notifications := (checkUpdates data now).notifications
        ++ scanNewNotifs (checkUpdates data now) now } : FinancialState)
    = checkUpdates data now
  rw [hnil, List.append_nil]
  have hassets : (checkUpdates data now).assets.map (autoCreditStep now)
      = (checkUpdates data now).assets := by
    show (data.assets.map (autoCreditStep now)).map (autoCreditStep now)
      = data.assets.map (autoCreditStep now)
    rw [List.map_map]
    exact List.map_congr_left (fun a _ => autoCreditStep_idem now a)
  rw [hassets]

/-- Claim C5: for a Monthly expense with a truthy dayOfMonth, the scanner
places the day in the current month, rolls the target one month forward
exactly when it is earlier than now minus one day, and emits the reminder
exactly when the rounded-up day distance lies between 0 and 3 and the
deterministic id (source id, type, target month) is not already present;
otherwise, including every past-due or further-out date, it emits nothing. -/
theorem monthlyReminderWindow (now : Int) (existing : List String) (e : Expense)
    (d : Int) (hm : e.frequency = Frequency.monthly) (hd : e.dayOfMonth = some d)
    (hd0 : d ≠ 0) :
    expenseReminders now existing e
      = (if 0 ≤ ceilDiv ((if jsSetDate now d < now - dayMs then jsAddMonth (jsSetDate now d)
              else jsSetDate now d) - now) dayMs
            ∧ ceilDiv ((if jsSetDate now d < now - dayMs then jsAddMonth (jsSetDate now d)
              else jsSetDate now d) - now) dayMs ≤ 3
            ∧ ("notif_exp_" ++ e.id ++ "_" ++ toString (jsMonth0
              (if jsSetDate now d < now - dayMs then jsAddMonth (jsSetDate now d)
                else jsSetDate now d))) ∉ existing
          then [{ id := "notif_exp_" ++ e.id ++ "_" ++ toString (jsMonth0
                    (if jsSetDate now d < now - dayMs then jsAddMonth (jsSetDate now d)
                      else jsSetDate now d)),
                  title := "Напоминание об оплате",
                  message := "Скоро оплата: " ++ e.title ++ " (" ++ toString e.amount
                    ++ " " ++ e.currency.code ++ ")",
                  date := now, isRead := false, type := NotifType.expense }]
          else []) := by
  have ht : optIntTruthy e.dayOfMonth = true := by
    simp [hd, optIntTruthy, hd0]
  have htarget : monthlyTarget now d
      = (if jsSetDate now d < now - dayMs then jsAddMonth (jsSetDate now d)
          else jsSetDate now d) := rfl
  unfold expenseReminders monthlyReminder planReminder
  rw [← htarget]
  simp only [hd, hm, ht]
  have ht' : optIntTruthy (some d) = true := by
    simp [optIntTruthy, hd0]
  by_cases hw : 0 ≤ ceilDiv (monthlyTarget now d - now) dayMs
      ∧ ceilDiv (monthlyTarget now d - now) dayMs ≤ 3
  · by_cases hmem : ("notif_exp_" ++ e.id ++ "_"
        ++ toString (jsMonth0 (monthlyTarget now d))) ∈ existing
    · simp [hw, hw.1, hw.2, hmem, ht']
    · simp [hw, hw.1, hw.2, hmem, ht']
  · simp [hw, ht']
    intro h1 h2
    exact absurd ⟨h1, h2⟩ hw

/-- Claim C5 (witness): at the epoch, a Monthly expense with dayOfMonth 3 is
two days out, so one reminder with the deterministic id fires against an
empty notification list. -/
theorem monthlyReminderWindowWitness :
    expenseReminders 0 [] rentExpense ≠ []
      ∧ (expenseReminders 0 [] rentExpense).map (fun n => n.id) = ["notif_exp_e1_0"] := by
  have h := monthlyReminderWindow 0 [] rentExpense 3 rfl rfl (by decide)
  rw [h, if_pos (by refine ⟨by decide, by decide, by simp⟩)]
  constructor
  · simp
  · simp
    decide

/-! ## Association-list grouping lemmas for the category breakdown -/

theorem addToMap_nil {κ : Type} [DecidableEq κ] (c : κ) (v : ℚ) :
    addToMap ([] : List (κ × ℚ)) c v = [(c, v)] := rfl

theorem addToMap_cons_self {κ : Type} [DecidableEq κ] (k : κ) (w v : ℚ)
    (rest : List (κ × ℚ)) :
    addToMap ((k, w) :: rest) k v = (k, w + v) :: rest := by
  simp [addToMap, ite_zero_self]

theorem addToMap_cons_ne {κ : Type} [DecidableEq κ] (k c : κ) (w v : ℚ)
    (rest : List (κ × ℚ)) (hk : k ≠ c) :
    addToMap ((k, w) :: rest) c v = (k, w) :: addToMap rest c v := by
  simp [addToMap, hk]

theorem findVal_nil {κ : Type} [DecidableEq κ] (c : κ) :
    findVal ([] : List (κ × ℚ)) c = none := rfl

theorem findVal_cons_self {κ : Type} [DecidableEq κ] (k : κ) (w : ℚ)
    (rest : List (κ × ℚ)) :
    findVal ((k, w) :: rest) k = some w := by
  simp [findVal]

theorem findVal_cons_ne {κ : Type} [DecidableEq κ] (k c : κ) (w : ℚ)
    (rest : List (κ × ℚ)) (hk : k ≠ c) :
    findVal ((k, w) :: rest) c = findVal rest c := by
  simp [findVal, hk]

theorem findVal_addToMap {κ : Type} [DecidableEq κ] (m : List (κ × ℚ)) (c c' : κ)
    (v : ℚ) :
    findVal (addToMap m c v) c'
      = if c' = c then some ((findVal m c').getD 0 + v) else findVal m c' := by
  induction m with
  | nil =>
      by_cases h : c' = c
      · subst h
        simp [addToMap_nil, findVal_cons_self, findVal_nil]
      · rw [addToMap_nil, findVal_cons_ne c c' v [] (Ne.symm h), if_neg h]
  | cons p rest ih =>
      obtain ⟨k, w⟩ := p
      by_cases hk : k = c
      · subst hk
        by_cases h' : c' = k
        · subst h'
          rw [addToMap_cons_self, findVal_cons_self, findVal_cons_self, if_pos rfl]
          rfl
        · rw [addToMap_cons_self, findVal_cons_ne k c' (w + v) rest (Ne.symm h'),
            if_neg h', findVal_cons_ne k c' w rest (Ne.symm h')]
      · by_cases h' : c' = k
        · subst h'
          rw [addToMap_cons_ne c' c w v rest hk, findVal_cons_self, if_neg hk,
            findVal_cons_self]
        · rw [addToMap_cons_ne k c w v rest hk,
            findVal_cons_ne k c' w (addToMap rest c v) (Ne.symm h'), ih,
            findVal_cons_ne k c' w rest (Ne.symm h')]

theorem mem_keys_addToMap {κ : Type} [DecidableEq κ] (m : List (κ × ℚ)) (c c' : κ)
    (v : ℚ) :
    c' ∈ (addToMap m c v).map Prod.fst ↔ c' ∈ m.map Prod.fst ∨ c' = c := by
  induction m with
  | nil => simp [addToMap_nil]
  | cons p rest ih =>
      obtain ⟨k, w⟩ := p
      by_cases hk : k = c
      · subst hk
        rw [addToMap_cons_self]
        simp only [List.map_cons, List.mem_cons]
        tauto
      · rw [addToMap_cons_ne k c w v rest hk]
        simp only [List.map_cons, List.mem_cons, ih]
        tauto

theorem nodup_keys_addToMap {κ : Type} [DecidableEq κ] (m : List (κ × ℚ)) (c : κ)
    (v : ℚ) (h : (m.map Prod.fst).Nodup) :
    ((addToMap m c v).map Prod.fst).Nodup := by
  induction m with
  | nil => simp [addToMap_nil]
  | cons p rest ih =>
      obtain ⟨k, w⟩ := p
      simp only [List.map_cons, List.nodup_cons] at h
      by_cases hk : k = c
      · subst hk
        rw [addToMap_cons_self]
        simp only [List.map_cons, List.nodup_cons]
        exact h
      · rw [addToMap_cons_ne k c w v rest hk]
        simp only [List.map_cons, List.nodup_cons]
        refine ⟨?_, ih h.2⟩
        rw [mem_keys_addToMap]
        push_neg
        exact ⟨h.1, hk⟩

theorem mem_iff_findVal {κ : Type} [DecidableEq κ] (m : List (κ × ℚ))
    (h : (m.map Prod.fst).Nodup) (c : κ) (v : ℚ) :
    (c, v) ∈ m ↔ findVal m c = some v := by
  induction m with
  | nil => simp [findVal_nil]
  | cons p rest ih =>
      obtain ⟨k, w⟩ := p
      simp only [List.map_cons, List.nodup_cons] at h
      by_cases hk : k = c
      · subst hk
        rw [findVal_cons_self]
        simp only [List.mem_cons, Option.some.injEq, Prod.mk.injEq, true_and]
        constructor
        · rintro (rfl | hmem)
          · rfl
          · exact absurd (List.mem_map_of_mem Prod.fst hmem) h.1
        · intro hv
          exact Or.inl hv.symm
      · rw [findVal_cons_ne k c w rest hk]
        simp only [List.mem_cons, Prod.mk.injEq]
        rw [← ih h.2]
        constructor
        · rintro (⟨hc, _⟩ | hmem)
          · exact absurd hc.symm hk
          · exact hmem
        · exact Or.inr

theorem findVal_foldl_addToMap {α κ : Type} [DecidableEq κ] (g : α → κ) (f : α → ℚ)
    (l : List α) (m : List (κ × ℚ)) (c : κ) :
    findVal (l.foldl (fun acc x => addToMap acc (g x) (f x)) m) c
      = if (findVal m c).isSome = true ∨ l.any (fun x => decide (g x = c)) = true
          then some ((findVal m c).getD 0
            + ((l.filter (fun x => decide (g x = c))).map f).sum)
          else none := by
  induction l generalizing m with
  | nil => cases hm : findVal m c <;> simp [hm]
  | cons x xs ih =>
      show findVal (xs.foldl _ (addToMap m (g x) (f x))) c = _
      rw [ih, findVal_addToMap]
      by_cases hx : g x = c
      · have hx' : c = g x := hx.symm
        rw [if_pos hx']
        rw [if_pos (Or.inl Option.isSome_some)]
        have hR : (findVal m c).isSome = true
            ∨ List.any (x :: xs) (fun y => decide (g y = c)) = true := by
          right
          rw [List.any_cons, decide_eq_true hx, Bool.true_or]
        rw [if_pos hR, Option.getD_some, List.filter_cons, decide_eq_true hx]
        rw [if_pos rfl, List.map_cons, List.sum_cons, add_assoc]
      · have hx' : c ≠ g x := fun hh => hx hh.symm
        rw [if_neg hx']
        rw [List.any_cons, List.filter_cons, decide_eq_false hx, Bool.false_or]
        rw [if_neg Bool.false_ne_true]

theorem nodup_keys_foldl_addToMap {α κ : Type} [DecidableEq κ] (g : α → κ)
    (f : α → ℚ) (l : List α) (m : List (κ × ℚ)) (h : (m.map Prod.fst).Nodup) :
    (((l.foldl (fun acc x => addToMap acc (g x) (f x)) m)).map Prod.fst).Nodup := by
  induction l generalizing m with
  | nil => exact h
  | cons x xs ih =>
      exact ih _ (nodup_keys_addToMap m (g x) (f x) h)

/-- Claim C9: the category breakdown lists exactly the categories of the
current month's expenses (with the generic label substituted for an empty
category), each paired with the converted sum of that category's
current-month expenses, and is sorted descending by summed value; debts and
out-of-month expenses never contribute. -/
theorem categoryDataSpec (expenses : List Expense) (rates : RateTable)
    (cur : Currency) (now : Int) :
    (∀ c v, (c, v) ∈ categoryData expenses rates cur now ↔
        (((expenses.filter (fun e => sameMonth e.date now)).filter
            (fun e => decide (categoryKey e = c))) ≠ []
          ∧ v = (((expenses.filter (fun e => sameMonth e.date now)).filter
              (fun e => decide (categoryKey e = c))).map
              (fun e => toDominant rates cur e.amount e.currency)).sum))
      ∧ (categoryData expenses rates cur now).Pairwise (fun p q => q.2 ≤ p.2) := by
  haveI htot : IsTotal (String × ℚ) (fun p q => q.2 ≤ p.2) :=
    ⟨fun a b => le_total b.2 a.2⟩
  haveI htrans : IsTrans (String × ℚ) (fun p q => q.2 ≤ p.2) :=
    ⟨fun _ _ _ hab hbc => le_trans hbc hab⟩
  have hperm := List.perm_insertionSort (fun p q : String × ℚ => q.2 ≤ p.2)
    ((expenses.filter (fun e => sameMonth e.date now)).foldl
      (fun m e => addToMap m (categoryKey e) (toDominant rates cur e.amount e.currency)) [])
  have hnodup := nodup_keys_foldl_addToMap categoryKey
    (fun e => toDominant rates cur e.amount e.currency)
    (expenses.filter (fun e => sameMonth e.date now)) [] (by simp)
  constructor
  · intro c v
    rw [show categoryData expenses rates cur now
        = ((expenses.filter (fun e => sameMonth e.date now)).foldl
            (fun m e => addToMap m (categoryKey e)
              (toDominant rates cur e.amount e.currency)) []).insertionSort
          (fun p q => q.2 ≤ p.2) from rfl]
    rw [(List.perm_insertionSort _ _).mem_iff]
    rw [mem_iff_findVal _ hnodup]
    rw [findVal_foldl_addToMap]
    have hiff : ((expenses.filter (fun e => sameMonth e.date now)).any
          (fun x => decide (categoryKey x = c)) = true)
        ↔ ((expenses.filter (fun e => sameMonth e.date now)).filter
          (fun x => decide (categoryKey x = c)) ≠ []) := by
      constructor
      · intro ha hnil
        obtain ⟨x, hxl, hpx⟩ := List.any_eq_true.mp ha
        have hxm : x ∈ (expenses.filter (fun e => sameMonth e.date now)).filter
            (fun x => decide (categoryKey x = c)) :=
          List.mem_filter.mpr ⟨hxl, hpx⟩
        rw [hnil] at hxm
        exact absurd hxm (List.not_mem_nil x)
      · intro hne
        obtain ⟨x, hx⟩ := List.exists_mem_of_ne_nil _ hne
        have hmf := List.mem_filter.mp hx
        exact List.any_eq_true.mpr ⟨x, hmf.1, hmf.2⟩
    simp only [findVal_nil, Option.isSome_none, Bool.false_eq_true, false_or,
      Option.getD_none, zero_add, hiff]
    by_cases hne : ((expenses.filter (fun e => sameMonth e.date now)).filter
        (fun e => decide (categoryKey e = c))) ≠ []
    · simp only [if_pos hne, Option.some.injEq]
      constructor
      · intro hs
        exact ⟨hne, hs.symm⟩
      · intro hs
        exact hs.2.symm
    · simp only [if_neg hne]
      constructor
      · intro hfalse
        exact Option.noConfusion hfalse
      · intro hs
        exact absurd hs.1 hne
  · exact List.sorted_insertionSort _ _

/-- Claim C9 (witness): with a Food expense of 50 this month, a Food expense
of 999 last month and a Health expense, the breakdown contains the Food
entry 50, not 1049. -/
theorem categoryDataSpecWitness :
    ("Food", (50 : ℚ)) ∈ categoryData foodExpenses ratesEmpty Currency.USD 0 := by
  refine ((categoryDataSpec foodExpenses ratesEmpty Currency.USD 0).1 "Food" 50).mpr
    ⟨?_, ?_⟩
  · simp [foodExpenses, weeklyExpense, categoryKey, jsStrOr,
      (by decide : sameMonth 0 0 = true),
      (by decide : sameMonth (-(2 * dayMs)) 0 = false)]
  · simp [foodExpenses, weeklyExpense, categoryKey, jsStrOr, toDominant,
      (by decide : sameMonth 0 0 = true),
      (by decide : sameMonth (-(2 * dayMs)) 0 = false)]

end FinanceTracker
